import Mathlib

/-!
Verification development for the RegStrava invoice-funding registry.
The Go sources are shallowly embedded: pure helpers become Lean functions,
repository/Redis state becomes explicit state passing, machine timestamps
become integer seconds, and the keyed HMAC-SHA256 digest is abstracted as
an opaque pure function argument (the claims under study never depend on
digest values, only on which digests are computed and how they are stored
and compared).
-/

set_option maxRecDepth 4000

/-! ## Normalizer (internal/service/hash_service.go and the SDK hasher)

Both copies of the normalization helpers are textually identical in the
source; they are embedded once here. -/

/-- trimSpace models Go strings.TrimSpace: drop leading and trailing
whitespace. -/
def trimSpace (s : String) : String :=
  String.mk (((s.toList.dropWhile Char.isWhitespace).reverse.dropWhile Char.isWhitespace).reverse)

/-- toUpperStr models Go strings.ToUpper character-wise. -/
def toUpperStr (s : String) : String :=
  String.mk (s.toList.map Char.toUpper)

/-- NormalizeTaxID: remove non-alphanumeric characters, uppercase. -/
def NormalizeTaxID (taxID : String) : String :=
  toUpperStr (String.mk (taxID.toList.filter Char.isAlphanum))

/-- NormalizeInvoiceNumber: trim surrounding whitespace, uppercase. -/
def NormalizeInvoiceNumber (invoiceNumber : String) : String :=
  toUpperStr (trimSpace invoiceNumber)

/-- NormalizeCurrency: trim, uppercase. -/
def NormalizeCurrency (currency : String) : String :=
  toUpperStr (trimSpace currency)

/-- NormalizeCountry: trim, uppercase. -/
def NormalizeCountry (country : String) : String :=
  toUpperStr (trimSpace country)

/-- NormalizeDocumentType: trim, uppercase. -/
def NormalizeDocumentType (docType : String) : String :=
  toUpperStr (trimSpace docType)

/-- NormalizeAmount renders an amount with exactly two decimal digits.
The Go source holds amounts as float64 and renders them with %.2f; here
amounts are carried as integer cents, which the claims never inspect
beyond presence. -/
def NormalizeAmount (cents : Int) : String :=
  toString (cents / 100) ++ "." ++ toString ((cents % 100) / 10) ++ toString (cents % 10)

/-- DefaultDocumentType from internal/domain/document_type.go. -/
def DefaultDocumentType : String := "INV"

/-! ## Request records (internal/domain)

The extended InvoiceCheckRawRequest (document-type era) is reconstructed
from its uses in the service and handler code: canonical fields plus the
deprecated aliases that the fallback chains read. -/

/-- Raw check request: canonical fields plus deprecated aliases. -/
structure InvoiceCheckRawRequest where
  documentType : String := ""
  documentID : String := ""
  supplierTaxID : String := ""
  supplierCountry : String := ""
  buyerTaxID : String := ""
  buyerCountry : String := ""
  amount : Option Int := none
  currency : String := ""
  invoiceNumber : String := ""
  issuerTaxID : String := ""
  issuerCountry : String := ""
  deriving Repr, DecidableEq

namespace HashService

/-- GenerateHashes from internal/service/hash_service.go (document-type era).
The keyed HMAC is the function argument hashFn. L1 is appended
unconditionally; L2 only when the (fallback-resolved, normalized) document
id is non-empty; L3 only when amount is present and the raw currency is
non-empty. -/
def GenerateHashes (hashFn : String → String) (req : InvoiceCheckRawRequest) : List String :=
  let documentType := if req.documentType = "" then DefaultDocumentType else req.documentType
  let documentType := NormalizeDocumentType documentType
  let documentID := if req.documentID = "" then req.invoiceNumber else req.documentID
  let documentID := NormalizeInvoiceNumber documentID
  let supplierTaxID := if req.supplierTaxID = "" then req.issuerTaxID else req.supplierTaxID
  let supplierTaxID := NormalizeTaxID supplierTaxID
  let supplierCountry := if req.supplierCountry = "" then req.issuerCountry else req.supplierCountry
  let supplierCountry := NormalizeCountry supplierCountry
  let buyerTaxID := NormalizeTaxID req.buyerTaxID
  let buyerCountry := NormalizeCountry req.buyerCountry
  let l1Data := documentType ++ "|" ++ supplierTaxID ++ "|" ++ supplierCountry ++ "|" ++
    buyerTaxID ++ "|" ++ buyerCountry
  let hashes := [hashFn l1Data]
  if documentID ≠ "" then
    let l2Data := l1Data ++ "|" ++ documentID
    let hashes := hashes ++ [hashFn l2Data]
    if req.amount.isSome ∧ req.currency ≠ "" then
      let amount := NormalizeAmount req.amount.get!
      let currency := NormalizeCurrency req.currency
      let l3Data := l2Data ++ "|" ++ amount ++ "|" ++ currency
      hashes ++ [hashFn l3Data]
    else hashes
  else hashes

/-- GeneratePartyHash: L0 digest of normalized tax id and country. -/
def GeneratePartyHash (hashFn : String → String) (taxID country : String) : String :=
  hashFn (NormalizeTaxID taxID ++ "|" ++ NormalizeCountry country)

end HashService

/-! ## SDK hasher (pkg hasher, src/unnamed/part_000) -/

/-- InvoiceData from the SDK hasher package. -/
structure InvoiceData where
  documentType : String := ""
  documentID : String := ""
  supplierTaxID : String := ""
  supplierCountry : String := ""
  buyerTaxID : String := ""
  buyerCountry : String := ""
  amount : Option Int := none
  currency : String := ""
  invoiceNumber : String := ""
  issuerTaxID : String := ""
  issuerCountry : String := ""
  invoiceDate : String := ""
  deriving Repr, DecidableEq

/-- HashResult from the SDK hasher package; the empty string marks a level
that was not computed, as in the Go struct zero values. -/
structure HashResult where
  l0Supplier : String := ""
  l0Buyer : String := ""
  l1DocType : String := ""
  l2Document : String := ""
  l3Full : String := ""
  deriving Repr, DecidableEq

namespace Hasher

/-- GeneratePartyHash from the SDK hasher. -/
def GeneratePartyHash (hashFn : String → String) (taxID country : String) : String :=
  hashFn (NormalizeTaxID taxID ++ "|" ++ NormalizeCountry country)

/-- GenerateHashes from the SDK hasher (src/unnamed/part_000): levels are
guarded, L1 requiring all four normalized party fields non-empty, L2
additionally the document id, L3 additionally amount presence and a
non-empty raw currency. -/
def GenerateHashes (hashFn : String → String) (data : InvoiceData) : HashResult :=
  let documentType := if data.documentType = "" then DefaultDocumentType else data.documentType
  let documentType := NormalizeDocumentType documentType
  let documentID := if data.documentID = "" then data.invoiceNumber else data.documentID
  let documentID := NormalizeInvoiceNumber documentID
  let supplierTaxID := if data.supplierTaxID = "" then data.issuerTaxID else data.supplierTaxID
  let supplierTaxID := NormalizeTaxID supplierTaxID
  let supplierCountry := if data.supplierCountry = "" then data.issuerCountry else data.supplierCountry
  let supplierCountry := NormalizeCountry supplierCountry
  let buyerTaxID := NormalizeTaxID data.buyerTaxID
  let buyerCountry := NormalizeCountry data.buyerCountry
  let r0 : HashResult :=
    { l0Supplier :=
        if supplierTaxID ≠ "" ∧ supplierCountry ≠ "" then
          GeneratePartyHash hashFn supplierTaxID supplierCountry
        else ""
      l0Buyer :=
        if buyerTaxID ≠ "" ∧ buyerCountry ≠ "" then
          GeneratePartyHash hashFn buyerTaxID buyerCountry
        else "" }
  if supplierTaxID ≠ "" ∧ supplierCountry ≠ "" ∧ buyerTaxID ≠ "" ∧ buyerCountry ≠ "" then
    let l1Data := documentType ++ "|" ++ supplierTaxID ++ "|" ++ supplierCountry ++ "|" ++
      buyerTaxID ++ "|" ++ buyerCountry
    let r1 := { r0 with l1DocType := hashFn l1Data }
    if documentID ≠ "" then
      let l2Data := l1Data ++ "|" ++ documentID
      let r2 := { r1 with l2Document := hashFn l2Data }
      if data.amount.isSome ∧ data.currency ≠ "" then
        let amount := NormalizeAmount data.amount.get!
        let currency := NormalizeCurrency data.currency
        let l3Data := l2Data ++ "|" ++ amount ++ "|" ++ currency
        { r2 with l3Full := hashFn l3Data }
      else r2
    else r1
  else r0

end Hasher

/-! ## Registry data model (internal/domain/invoice.go, document-type era)

Timestamps are integer seconds; uuids become naturals; the nullable
funder attribution is an Option. -/

/-- HashLevel is the Go int-backed enum; the document-type era values are
1 = DocType+Parties, 2 = +DocumentID, 3 = +Amount (migration 002 comment
and the DetermineHashLevel comment in hash_service.go). -/
abbrev HashLevel := Int

/-- HashLevelDocType (L1). -/
def HashLevelDocType : HashLevel := 1

/-- HashLevelDocument (L2). -/
def HashLevelDocument : HashLevel := 2

/-- HashLevelFull (L3). -/
def HashLevelFull : HashLevel := 3

/-- A stored registry row (domain.InvoiceHash). -/
structure InvoiceHash where
  id : Nat
  hashValue : String
  hashLevel : HashLevel
  documentType : String
  fundedAt : Int
  funderId : Option Nat
  expiresAt : Option Int
  createdAt : Int
  deriving Repr, DecidableEq

/-- The invoice_hashes table contents. Its hash_value column carries a
UNIQUE constraint (001_initial_schema.sql line 24), which the embedded
Create below enforces. -/
abbrev InvoiceDB := List InvoiceHash

namespace InvoiceRepository

/-- FindByHash (internal/repository/invoice_repo.go): first row whose
hash_value matches, or none. -/
def FindByHash (db : InvoiceDB) (hashValue : String) : Option InvoiceHash :=
  db.find? (fun r => r.hashValue == hashValue)

/-- Create (internal/repository/invoice_repo.go): a plain INSERT with no
conflict clause; the UNIQUE constraint on hash_value makes the insert fail
when a row with the same hash already exists. -/
def Create (db : InvoiceDB) (row : InvoiceHash) : Except String InvoiceDB :=
  if db.any (fun r => r.hashValue == row.hashValue) then
    .error "failed to create invoice hash: unique constraint violation"
  else
    .ok (db ++ [row])

/-- Delete (internal/repository/invoice_repo.go): DELETE by id, erroring
when no row was affected. -/
def Delete (db : InvoiceDB) (id : Nat) : Except String InvoiceDB :=
  if db.any (fun r => r.id == id) then
    .ok (db.filter (fun r => !(r.id == id)))
  else
    .error "invoice hash not found"

end InvoiceRepository

namespace HashService

/-- DetermineHashLevel (internal/service/hash_service.go, document-type
era): index 0 is L1, 1 is L2, 2 is L3, anything else falls back to the
lowest level. -/
def DetermineHashLevel (index : Int) : HashLevel :=
  if index = 0 then HashLevelDocType
  else if index = 1 then HashLevelDocument
  else if index = 2 then HashLevelFull
  else HashLevelDocType

end HashService

/-! ## InvoiceService (internal/service/invoice_service.go, newer copy) -/

/-- Per-level match detail in the check response. -/
structure MatchDetail where
  status : String
  firstSeen : Int
  registeredAt : Option Int
  deriving Repr, DecidableEq

/-- The extended check response (found plus all matched levels, with the
backward-compatible first-match fields). -/
structure InvoiceCheckResponse where
  found : Bool
  matchedLevels : List String
  details : List (String × MatchDetail)
  funded : Bool
  matchedLevel : Option HashLevel
  fundedAt : Option Int
  deriving Repr, DecidableEq

/-- Register request (pre-hashed form). fundingDate carries the result of
time.Parse on the request string: none when the parse failed. -/
structure InvoiceRegisterRequest where
  hashes : List String
  documentType : String := ""
  fundingDate : Option Int := none
  trackFunder : Bool := false
  expiresInDays : Option Int := none
  deriving Repr, DecidableEq

/-- Register response. -/
structure InvoiceRegisterResponse where
  success : Bool
  registeredAt : Int
  hashLevels : List Int
  deriving Repr, DecidableEq

namespace InvoiceService

/-- String rendering of a hash level (used only on the dead branch of the
level-name computation, which Go can never reach without panicking first). -/
def levelName (level : HashLevel) : String := "L" ++ toString level

/-- The loop body of CheckInvoice over the enumerated hash list. Indexing
levelNames with an out-of-range index panics in Go before the bounds
check on the following line runs; the panic is modelled as none. -/
def CheckInvoiceLoop (db : InvoiceDB) (now : Int) :
    List (Nat × String) → List String → List (String × MatchDetail) →
    Option Int → Option HashLevel → Option InvoiceCheckResponse
  | [], matchedLevels, details, firstFundedAt, firstMatchedLevel =>
    let found := !matchedLevels.isEmpty
    some { found := found, matchedLevels := matchedLevels, details := details,
           funded := found, matchedLevel := firstMatchedLevel, fundedAt := firstFundedAt }
  | (i, hash) :: rest, matchedLevels, details, firstFundedAt, firstMatchedLevel =>
    match InvoiceRepository.FindByHash db hash with
    | none => CheckInvoiceLoop db now rest matchedLevels details firstFundedAt firstMatchedLevel
    | some invoiceHash =>
      if invoiceHash.expiresAt.any (fun e => e < now) then
        CheckInvoiceLoop db now rest matchedLevels details firstFundedAt firstMatchedLevel
      else
        let level := HashService.DetermineHashLevel i
        match ["L1", "L2", "L3"].get? i with
        | none => none
        | some name0 =>
          let name := if 3 ≤ i then levelName level else name0
          CheckInvoiceLoop db now rest (matchedLevels ++ [name])
            (details ++ [(name, { status := "registered", firstSeen := invoiceHash.createdAt,
                                  registeredAt := some invoiceHash.fundedAt })])
            (firstFundedAt <|> some invoiceHash.fundedAt)
            (firstMatchedLevel <|> some level)

/-- CheckInvoice: probes every supplied hash, skipping expired rows, and
collects all matching level names; none models the index-out-of-range
panic. -/
def CheckInvoice (db : InvoiceDB) (now : Int) (hashes : List String) :
    Option InvoiceCheckResponse :=
  CheckInvoiceLoop db now hashes.enum [] [] none none

/-- The loop body of RegisterInvoice: for each enumerated hash, skip it if
already present, otherwise insert a fresh row. freshIds supplies the
uuid.New() value for each loop index. -/
def RegisterInvoiceLoop (now : Int) (documentType : String) (fundingDate : Int)
    (storedFunderID : Option Nat) (expiresAt : Option Int) (freshIds : Nat → Nat) :
    List (Nat × String) → InvoiceDB → List Int → Except String (InvoiceDB × List Int)
  | [], db, registeredLevels => .ok (db, registeredLevels)
  | (i, hash) :: rest, db, registeredLevels =>
    match InvoiceRepository.FindByHash db hash with
    | some _ =>
      RegisterInvoiceLoop now documentType fundingDate storedFunderID expiresAt freshIds
        rest db registeredLevels
    | none =>
      let level := HashService.DetermineHashLevel i
      let row : InvoiceHash :=
        { id := freshIds i, hashValue := hash, hashLevel := level,
          documentType := documentType, fundedAt := fundingDate,
          funderId := storedFunderID, expiresAt := none, createdAt := now }
      let row := { row with expiresAt := expiresAt }
      match InvoiceRepository.Create db row with
      | .error e => .error e
      | .ok db =>
        RegisterInvoiceLoop now documentType fundingDate storedFunderID expiresAt freshIds
          rest db (registeredLevels ++ [level])

/-- RegisterInvoice: parse the funding date (falling back to now), resolve
expiry and consented attribution, then insert every not-yet-present hash. -/
def RegisterInvoice (db : InvoiceDB) (now : Int) (req : InvoiceRegisterRequest)
    (funderID : Option Nat) (freshIds : Nat → Nat) :
    Except String (InvoiceDB × InvoiceRegisterResponse) :=
  let fundingDate := req.fundingDate.getD now
  let expiresAt : Option Int :=
    match req.expiresInDays with
    | some d => if 0 < d then some (now + d * 86400) else none
    | none => none
  let storedFunderID := if req.trackFunder then funderID else none
  let documentType := if req.documentType = "" then DefaultDocumentType else req.documentType
  match RegisterInvoiceLoop now documentType fundingDate storedFunderID expiresAt freshIds
      req.hashes.enum db [] with
  | .error e => .error e
  | .ok (db, registeredLevels) =>
    .ok (db, { success := true, registeredAt := now, hashLevels := registeredLevels })

/-- Service-level error taxonomy (internal/service/errors.go). -/
inductive ServiceError where
  | notFound
  | forbidden
  | unregisterWindowExpired
  | storage (msg : String)
  deriving Repr, DecidableEq

/-- UnregisterInvoice: not found when the hash is absent, forbidden when
the stored owner is null or differs from the caller, window-expired when
the row is older than maxAgeHours, otherwise delete. -/
def UnregisterInvoice (db : InvoiceDB) (hash : String) (funderID : Nat)
    (maxAgeHours : Int) (now : Int) : Except ServiceError InvoiceDB :=
  match InvoiceRepository.FindByHash db hash with
  | none => .error .notFound
  | some invoiceHash =>
    if invoiceHash.funderId ≠ some funderID then .error .forbidden
    else if maxAgeHours * 3600 < now - invoiceHash.createdAt then
      .error .unregisterWindowExpired
    else
      match InvoiceRepository.Delete db invoiceHash.id with
      | .ok db => .ok db
      | .error e => .error (.storage e)

end InvoiceService

/-! ## Quota tracker (internal/domain/usage.go, internal/service/usage_service.go) -/

/-- The four metered usage types. -/
inductive UsageType where
  | check
  | register
  | partyCheck
  | partyRegister
  deriving Repr, DecidableEq

/-- String rendering of a usage type (the Go UsageType string constants). -/
def UsageType.str : UsageType → String
  | .check => "check"
  | .register => "register"
  | .partyCheck => "party_check"
  | .partyRegister => "party_register"

/-- Subscription tier limits; none means unbounded. -/
structure SubscriptionTier where
  checkLimitDaily : Option Int := none
  checkLimitMonthly : Option Int := none
  registerLimitDaily : Option Int := none
  registerLimitMonthly : Option Int := none
  partyQueryLimitDaily : Option Int := none
  deriving Repr, DecidableEq

/-- Current usage statistics returned by GetCurrentUsage. -/
structure UsageStats where
  dailyChecks : Int := 0
  dailyRegisters : Int := 0
  dailyPartyChecks : Int := 0
  dailyPartyRegisters : Int := 0
  monthlyChecks : Int := 0
  monthlyRegisters : Int := 0
  monthlyPartyChecks : Int := 0
  monthlyPartyRegisters : Int := 0
  dailyResetsAt : Int := 0
  monthlyResetsAt : Int := 0
  deriving Repr, DecidableEq

/-- Structured quota rejection (domain.QuotaExceededError). -/
structure QuotaExceededError where
  error : String
  quotaType : String
  periodType : String
  currentUsage : Int
  limit : Int
  resetsAt : Int
  deriving Repr, DecidableEq

/-- CalculatePercentage (internal/domain/usage.go): usage over limit as a
percentage, 0 when the limit is absent or zero. The Go float64 arithmetic
is carried out over the rationals; the claims only touch the exact zero
branch. -/
def CalculatePercentage (usage : Int) (limit : Option Int) : ℚ :=
  match limit with
  | none => 0
  | some l => if l = 0 then 0 else (usage : ℚ) / (l : ℚ) * 100

namespace UsageService

/-- getDailyLimitAndUsage: the tier limit and current daily usage for the
given usage type. -/
def getDailyLimitAndUsage (tier : SubscriptionTier) (usage : UsageStats) :
    UsageType → Option Int × Int
  | .check => (tier.checkLimitDaily, usage.dailyChecks)
  | .register => (tier.registerLimitDaily, usage.dailyRegisters)
  | .partyCheck => (tier.partyQueryLimitDaily, usage.dailyPartyChecks)
  | .partyRegister => (tier.partyQueryLimitDaily, usage.dailyPartyRegisters)

/-- getMonthlyLimitAndUsage: party usage types carry no monthly limit. -/
def getMonthlyLimitAndUsage (tier : SubscriptionTier) (usage : UsageStats) :
    UsageType → Option Int × Int
  | .check => (tier.checkLimitMonthly, usage.monthlyChecks)
  | .register => (tier.registerLimitMonthly, usage.monthlyRegisters)
  | .partyCheck => (none, usage.monthlyPartyChecks)
  | .partyRegister => (none, usage.monthlyPartyRegisters)

/-- CheckQuota (internal/service/usage_service.go): daily window first,
then monthly; a bounded limit rejects as soon as usage reaches it,
an absent limit never rejects. -/
def CheckQuota (tier : SubscriptionTier) (usage : UsageStats) (usageType : UsageType) :
    Option QuotaExceededError :=
  let (dailyLimit, dailyUsage) := getDailyLimitAndUsage tier usage usageType
  match dailyLimit with
  | some l =>
    if l ≤ dailyUsage then
      some { error := "quota_exceeded", quotaType := usageType.str, periodType := "daily",
             currentUsage := dailyUsage, limit := l, resetsAt := usage.dailyResetsAt }
    else
      let (monthlyLimit, monthlyUsage) := getMonthlyLimitAndUsage tier usage usageType
      match monthlyLimit with
      | some m =>
        if m ≤ monthlyUsage then
          some { error := "quota_exceeded", quotaType := usageType.str, periodType := "monthly",
                 currentUsage := monthlyUsage, limit := m, resetsAt := usage.monthlyResetsAt }
        else none
      | none => none
  | none =>
    let (monthlyLimit, monthlyUsage) := getMonthlyLimitAndUsage tier usage usageType
    match monthlyLimit with
    | some m =>
      if m ≤ monthlyUsage then
        some { error := "quota_exceeded", quotaType := usageType.str, periodType := "monthly",
               currentUsage := monthlyUsage, limit := m, resetsAt := usage.monthlyResetsAt }
      else none
    | none => none

/-- IncrementUsage (internal/repository/usage_repo.go): bump the column of
the given usage type in both the daily and the monthly period record. -/
def IncrementUsage (usage : UsageStats) : UsageType → UsageStats
  | .check => { usage with dailyChecks := usage.dailyChecks + 1,
                           monthlyChecks := usage.monthlyChecks + 1 }
  | .register => { usage with dailyRegisters := usage.dailyRegisters + 1,
                              monthlyRegisters := usage.monthlyRegisters + 1 }
  | .partyCheck => { usage with dailyPartyChecks := usage.dailyPartyChecks + 1,
                                monthlyPartyChecks := usage.monthlyPartyChecks + 1 }
  | .partyRegister => { usage with dailyPartyRegisters := usage.dailyPartyRegisters + 1,
                                   monthlyPartyRegisters := usage.monthlyPartyRegisters + 1 }

end UsageService

/-! ## Quota middleware (internal/api/middleware, src/unnamed/part_005) -/

/-- Substring containment, as Go strings.Contains. -/
def strContains (s sub : String) : Bool :=
  decide (sub.toList <:+: s.toList)

namespace QuotaMiddleware

/-- getUsageType: only POST requests to the check/register endpoints are
metered; the empty result is modelled as none. -/
def getUsageType (method path : String) : Option UsageType :=
  if method ≠ "POST" then none
  else if strContains path "/invoices/check" then some .check
  else if strContains path "/invoices/register" then some .register
  else if strContains path "/party/check" then some .partyCheck
  else if strContains path "/party/register" then some .partyRegister
  else none

/-- What the middleware hands back to the HTTP layer. -/
inductive Outcome where
  | next
  | tooManyRequests (e : QuotaExceededError)
  deriving Repr, DecidableEq

/-- EnforceQuota (src/unnamed/part_005): check the quota, record the
attempt in every metered case (including quota breaches), and either
reject with 429 or continue to the handler. The middleware state is the
usage store the quota check reads and RecordUsage increments. -/
def EnforceQuota (tier : SubscriptionTier) (usage : UsageStats)
    (funderID : Option Nat) (method path : String) : Outcome × UsageStats :=
  match funderID with
  | none => (.next, usage)
  | some _ =>
    match getUsageType method path with
    | none => (.next, usage)
    | some usageType =>
      match UsageService.CheckQuota tier usage usageType with
      | some quotaError =>
        (.tooManyRequests quotaError, UsageService.IncrementUsage usage usageType)
      | none =>
        (.next, UsageService.IncrementUsage usage usageType)

end QuotaMiddleware

/-! ## Rate limiter (src/unnamed/part_003, RateLimitService)

Wall-clock instants are civil date-time tuples in the server's fixed
location; absolute time is integer seconds derived through the proleptic
Gregorian calendar, mirroring the normalization Go's time.Date performs on
out-of-range month and day arguments. -/

/-- A Go time.Time value, decomposed into the civil fields the rate
limiter reads. -/
structure GoTime where
  year : Int
  month : Int
  day : Int
  hour : Int
  minute : Int
  second : Int
  deriving Repr, DecidableEq

/-- Days from the civil epoch 1970-01-01 for a (normalized) y-m-d date,
via the standard era decomposition of the proleptic Gregorian calendar. -/
def daysFromCivil (y m d : Int) : Int :=
  let y := if m ≤ 2 then y - 1 else y
  let era := y.ediv 400
  let yoe := y - era * 400
  let mp := (m + 9).emod 12
  let doy := (153 * mp + 2).ediv 5 + d - 1
  let doe := yoe * 365 + yoe.ediv 4 - yoe.ediv 100 + doy
  era * 146097 + doe - 719468

/-- Absolute seconds of time.Date(y, m, d, hh, mm, ss, 0, loc): the month
is normalized first (Go accepts out-of-range months and days), then the
day offset is applied from the first of the month. -/
def GoDateAbs (y m d hh mm ss : Int) : Int :=
  let m0 := m - 1
  let ny := y + m0.ediv 12
  let nm := m0.emod 12 + 1
  (daysFromCivil ny nm 1 + (d - 1)) * 86400 + hh * 3600 + mm * 60 + ss

/-- Absolute seconds of a GoTime. -/
def GoTime.abs (t : GoTime) : Int :=
  GoDateAbs t.year t.month t.day t.hour t.minute t.second

/-- Left pad a natural's decimal form with zeros to the given width,
as Go's Format("2006-01-02") does for the date components. -/
def padNat (width n : Nat) : String :=
  let s := toString n
  String.mk (List.replicate (width - s.length) '0') ++ s

/-- Format "2006-01-02". -/
def fmtDaily (t : GoTime) : String :=
  padNat 4 t.year.toNat ++ "-" ++ padNat 2 t.month.toNat ++ "-" ++ padNat 2 t.day.toNat

/-- Format "2006-01". -/
def fmtMonthly (t : GoTime) : String :=
  padNat 4 t.year.toNat ++ "-" ++ padNat 2 t.month.toNat

/-- Redis counter store: key to integer value, absent keys read 0 via
redis.Nil. -/
abbrev RedisStore := String → Option Int

namespace RateLimitService

/-- Result of a rate limit check (RateLimitResult). -/
structure RateLimitResult where
  allowed : Bool
  dailyUsed : Int
  dailyLimit : Int
  monthlyUsed : Int
  monthlyLimit : Int
  retryAfterSecs : Int
  deriving Repr, DecidableEq

/-- The daily counter key ratelimit:daily:funder:YYYY-MM-DD. -/
def dailyKey (funderID : String) (now : GoTime) : String :=
  "ratelimit:daily:" ++ funderID ++ ":" ++ fmtDaily now

/-- The monthly counter key ratelimit:monthly:funder:YYYY-MM. -/
def monthlyKey (funderID : String) (now : GoTime) : String :=
  "ratelimit:monthly:" ++ funderID ++ ":" ++ fmtMonthly now

/-- CheckAndIncrement (src/unnamed/part_003): read both counters, reject
on the daily limit first with seconds until next midnight, then on the
monthly limit with seconds until the first of the next month, and
otherwise atomically increment both counters (their ExpireAt metadata is
outside this model). -/
def CheckAndIncrement (store : RedisStore) (funderID : String) (now : GoTime)
    (dailyLimit monthlyLimit : Int) : RateLimitResult × RedisStore :=
  let dKey := dailyKey funderID now
  let mKey := monthlyKey funderID now
  let dailyCount := (store dKey).getD 0
  let monthlyCount := (store mKey).getD 0
  if dailyLimit ≤ dailyCount then
    let tomorrow := GoDateAbs now.year now.month (now.day + 1) 0 0 0
    ({ allowed := false, dailyUsed := dailyCount, dailyLimit := dailyLimit,
       monthlyUsed := monthlyCount, monthlyLimit := monthlyLimit,
       retryAfterSecs := tomorrow - now.abs }, store)
  else if monthlyLimit ≤ monthlyCount then
    let nextMonth := GoDateAbs now.year (now.month + 1) 1 0 0 0
    ({ allowed := false, dailyUsed := dailyCount, dailyLimit := dailyLimit,
       monthlyUsed := monthlyCount, monthlyLimit := monthlyLimit,
       retryAfterSecs := nextMonth - now.abs }, store)
  else
    let store1 : RedisStore := fun k => if k = dKey then some (dailyCount + 1) else store k
    let store2 : RedisStore := fun k => if k = mKey then some (monthlyCount + 1) else store1 k
    ({ allowed := true, dailyUsed := dailyCount + 1, dailyLimit := dailyLimit,
       monthlyUsed := monthlyCount + 1, monthlyLimit := monthlyLimit,
       retryAfterSecs := 0 }, store2)

end RateLimitService

/-! ## Concurrent registration (claim about RegisterInvoice races)

Each RegisterInvoice call for a single fingerprint performs two storage
round trips: the FindByHash read and, when nothing was found, the Create
insert. Two concurrent calls are modelled as two such threads whose
storage steps interleave under an arbitrary schedule; the database
serializes individual statements, and the UNIQUE constraint on hash_value
rejects the second insert of the same hash. -/

namespace RegisterRace

/-- Outcome a caller receives: the response of a completed RegisterInvoice
(ok with the registered levels) or the propagated Create error. -/
inductive RegResult where
  | ok (levels : List Int)
  | dbError
  deriving Repr, DecidableEq

/-- Progress of one register call: before its FindByHash read, between
read and insert (carrying what the read saw), or finished. -/
inductive TPhase where
  | toFind
  | toInsert (found : Bool)
  | done (r : RegResult)
  deriving Repr, DecidableEq

/-- The identity of one caller: the fresh row id and the attribution it
would store. -/
structure CallerParams where
  rowId : Nat
  funderId : Option Nat
  deriving Repr, DecidableEq

/-- The row a caller would insert for the fingerprint (the loop body of
RegisterInvoice at index 0 with the default document type). -/
def newRow (h : String) (p : CallerParams) (now : Int) : InvoiceHash :=
  { id := p.rowId, hashValue := h, hashLevel := HashService.DetermineHashLevel 0,
    documentType := DefaultDocumentType, fundedAt := now, funderId := p.funderId,
    expiresAt := none, createdAt := now }

/-- One storage round trip of one register call. -/
def step (h : String) (p : CallerParams) (now : Int) (db : InvoiceDB) (t : TPhase) :
    InvoiceDB × TPhase :=
  match t with
  | .toFind => (db, .toInsert (InvoiceRepository.FindByHash db h).isSome)
  | .toInsert true => (db, .done (.ok []))
  | .toInsert false =>
    match InvoiceRepository.Create db (newRow h p now) with
    | .ok db => (db, .done (.ok [Int.natAbs (HashService.DetermineHashLevel 0)]))
    | .error _ => (db, .done .dbError)
  | .done r => (db, .done r)

/-- Run an interleaving: true steps caller A, false steps caller B. -/
def run (h : String) (pA pB : CallerParams) (now : Int) :
    List Bool → InvoiceDB × TPhase × TPhase → InvoiceDB × TPhase × TPhase
  | [], st => st
  | c :: rest, (db, a, b) =>
    if c then
      let (db, a) := step h pA now db a
      run h pA pB now rest (db, a, b)
    else
      let (db, b) := step h pB now db b
      run h pA pB now rest (db, a, b)

/-- Number of stored rows carrying the fingerprint. -/
def countHash (db : InvoiceDB) (h : String) : Nat :=
  (db.filter (fun r => r.hashValue == h)).length

/-- A caller that has finished. -/
def TPhase.isDone : TPhase → Bool
  | .done _ => true
  | _ => false

/-- A caller that has finished with a non-error response. -/
def TPhase.isOk : TPhase → Bool
  | .done (.ok _) => true
  | _ => false

/-- A caller that has finished having inserted the row itself. -/
def TPhase.inserted : TPhase → Bool
  | .done (.ok (_ :: _)) => true
  | _ => false

/-- A caller whose last storage interaction observed the row present:
after a successful find, or finished (skip, insert, or unique violation
all require knowledge of the row's presence). -/
def TPhase.sawRow : TPhase → Bool
  | .toInsert true => true
  | .done _ => true
  | _ => false

end RegisterRace

/-! ## Spec-side formulations used to state the claims -/

/-- A supplied fingerprint matches when a stored row exists and its expiry
is unset or not yet in the past. -/
def liveMatch (db : InvoiceDB) (now : Int) (hash : String) : Bool :=
  match InvoiceRepository.FindByHash db hash with
  | some r => !(r.expiresAt.any (fun e => e < now))
  | none => false

/-- The union of evidence the spec describes: the level names of exactly
the supplied fingerprints that have a live stored row, in supplied order. -/
def specMatchedLevels (db : InvoiceDB) (now : Int) (hashes : List String) : List String :=
  (hashes.enum.filter (fun p => liveMatch db now p.2)).map
    (fun p => ["L1", "L2", "L3"].getD p.1 "")

/-- Seconds remaining from a civil instant until the next midnight. -/
def secondsUntilNextMidnight (t : GoTime) : Int :=
  86400 - (t.hour * 3600 + t.minute * 60 + t.second)

/-- Absolute seconds of the first instant of the calendar month after the
given instant's month. -/
def nextCalendarMonthStart (t : GoTime) : Int :=
  if t.month = 12 then 86400 * daysFromCivil (t.year + 1) 1 1
  else 86400 * daysFromCivil t.year (t.month + 1) 1

/-- A fingerprint is present when some stored row carries it. -/
def hashPresent (db : InvoiceDB) (h : String) : Prop :=
  ∃ r ∈ db, r.hashValue = h

/-- The legacy-alias precedence resolution: the canonical field wins
unless it is empty, in which case the deprecated field is read. -/
def fallback (canonical legacy : String) : String :=
  if canonical = "" then legacy else canonical

/-- Invariant of the two-caller registration race: at most one row ever
carries the fingerprint; a caller that has observed the row present (or
has finished) can only have done so when the row count is one; and a row
count of one means one of the callers performed the insert. -/
def RegisterRace.Inv (h : String) (db : InvoiceDB) (a b : RegisterRace.TPhase) : Prop :=
  RegisterRace.countHash db h ≤ 1 ∧
  (a.sawRow = true → RegisterRace.countHash db h = 1) ∧
  (b.sawRow = true → RegisterRace.countHash db h = 1) ∧
  (RegisterRace.countHash db h = 1 → a.inserted = true ∨ b.inserted = true)

/-! ## Theorems -/

/-- C10: a bounded daily limit of 0 rejects every call of that usage type
(current usage is never below 0), while CalculatePercentage treats a limit
of 0 exactly like an absent limit and reports 0 percent. -/
theorem zero_limit_rejects_but_displays_zero_percent
    (tier : SubscriptionTier) (usage : UsageStats) (ty : UsageType)
    (hlim : (UsageService.getDailyLimitAndUsage tier usage ty).1 = some 0)
    (husage : 0 ≤ (UsageService.getDailyLimitAndUsage tier usage ty).2) :
    (∃ e, UsageService.CheckQuota tier usage ty = some e ∧ e.periodType = "daily" ∧
      e.limit = 0 ∧ e.currentUsage = (UsageService.getDailyLimitAndUsage tier usage ty).2) ∧
    (∀ u : Int, CalculatePercentage u (some 0) = 0) := by
  constructor
  · rcases hdef : UsageService.getDailyLimitAndUsage tier usage ty with ⟨dl, du⟩
    rw [hdef] at hlim husage
    obtain rfl : dl = some 0 := hlim
    refine ⟨{ error := "quota_exceeded", quotaType := ty.str, periodType := "daily",
              currentUsage := du, limit := 0, resetsAt := usage.dailyResetsAt },
            ?_, rfl, rfl, ?_⟩
    · unfold UsageService.CheckQuota
      rw [hdef]
      simp only at husage
      simp [husage]
    · rfl
  · intro u
    simp [CalculatePercentage]

/-- C10 witness: with a check tier limited to 0 daily checks and zero
usage, the quota check rejects while the displayed percentage is 0. -/
theorem zero_limit_rejects_but_displays_zero_percent_witness :
    (∃ e, UsageService.CheckQuota { checkLimitDaily := some 0 } {} .check = some e ∧
      e.periodType = "daily" ∧ e.limit = 0 ∧
      e.currentUsage = (UsageService.getDailyLimitAndUsage { checkLimitDaily := some 0 } {} .check).2) ∧
    (∀ u : Int, CalculatePercentage u (some 0) = 0) :=
  zero_limit_rejects_but_displays_zero_percent
    { checkLimitDaily := some 0 } {} .check (by decide) (by decide)

/-- C7 counterexample: a tier with check_limit_daily unset but a bounded
monthly check limit still yields QuotaExceeded for the check usage type,
so the claim that such a tier never yields QuotaExceeded for checks fails. -/
theorem unlimited_daily_check_tier_still_rejects :
    ({ checkLimitDaily := none, checkLimitMonthly := some 0 } : SubscriptionTier).checkLimitDaily
        = none ∧
    UsageService.CheckQuota { checkLimitDaily := none, checkLimitMonthly := some 0 } {} .check =
      some { error := "quota_exceeded", quotaType := "check", periodType := "monthly",
             currentUsage := 0, limit := 0, resetsAt := 0 } := by
  constructor
  · rfl
  · rfl

/-- C7 amended: with check_limit_daily unset, CheckQuota never rejects a
check on the daily window (any rejection is a monthly one, and none at all
occurs when the monthly check limit is also unset), and the daily check
percentage is 0 regardless of volume. -/
theorem unlimited_daily_check_limit_never_daily_rejects
    (tier : SubscriptionTier) (usage : UsageStats)
    (hd : tier.checkLimitDaily = none) :
    (∀ e, UsageService.CheckQuota tier usage .check = some e → e.periodType = "monthly") ∧
    (tier.checkLimitMonthly = none → UsageService.CheckQuota tier usage .check = none) ∧
    CalculatePercentage usage.dailyChecks tier.checkLimitDaily = 0 := by
  refine ⟨?_, ?_, ?_⟩
  · intro e he
    unfold UsageService.CheckQuota at he
    rw [show UsageService.getDailyLimitAndUsage tier usage .check =
      (tier.checkLimitDaily, usage.dailyChecks) from rfl, hd] at he
    simp only [UsageService.getMonthlyLimitAndUsage] at he
    rcases hm : tier.checkLimitMonthly with _ | m
    · rw [hm] at he; simp at he
    · rw [hm] at he
      by_cases hb : m ≤ usage.monthlyChecks
      · simp [hb] at he; rw [← he]
      · simp [hb] at he
  · intro hm
    unfold UsageService.CheckQuota
    rw [show UsageService.getDailyLimitAndUsage tier usage .check =
      (tier.checkLimitDaily, usage.dailyChecks) from rfl, hd]
    simp only [UsageService.getMonthlyLimitAndUsage]
    rw [hm]
  · rw [hd]; rfl

/-- C7 amended witness: a tier with no daily check limit and a monthly
limit of 5 at 100 monthly checks rejects only on the monthly window. -/
theorem unlimited_daily_check_limit_never_daily_rejects_witness :
    (∀ e, UsageService.CheckQuota { checkLimitDaily := none, checkLimitMonthly := some 5 }
        { monthlyChecks := 100 } .check = some e → e.periodType = "monthly") ∧
    (({ checkLimitDaily := none, checkLimitMonthly := some 5 } : SubscriptionTier).checkLimitMonthly
        = none →
      UsageService.CheckQuota { checkLimitDaily := none, checkLimitMonthly := some 5 }
        { monthlyChecks := 100 } .check = none) ∧
    CalculatePercentage ({ monthlyChecks := 100 } : UsageStats).dailyChecks
      ({ checkLimitDaily := none, checkLimitMonthly := some 5 } : SubscriptionTier).checkLimitDaily
        = 0 :=
  unlimited_daily_check_limit_never_daily_rejects
    { checkLimitDaily := none, checkLimitMonthly := some 5 } { monthlyChecks := 100 } rfl

/-- C8: for every metered request, the quota middleware records the
attempted usage (both the daily and the monthly counter of the relevant
usage type are incremented) in the state it returns, both when the quota
check reports a breach (before the QuotaExceeded rejection goes out) and
when it passes (before the call proceeds). -/
theorem quota_breach_still_records_usage
    (tier : SubscriptionTier) (st : UsageStats) (f : Nat) (method path : String)
    (ty : UsageType) (hty : QuotaMiddleware.getUsageType method path = some ty) :
    (∀ e, UsageService.CheckQuota tier st ty = some e →
      QuotaMiddleware.EnforceQuota tier st (some f) method path =
        (.tooManyRequests e, UsageService.IncrementUsage st ty)) ∧
    (UsageService.CheckQuota tier st ty = none →
      QuotaMiddleware.EnforceQuota tier st (some f) method path =
        (.next, UsageService.IncrementUsage st ty)) ∧
    (UsageService.getDailyLimitAndUsage tier (UsageService.IncrementUsage st ty) ty).2 =
      (UsageService.getDailyLimitAndUsage tier st ty).2 + 1 ∧
    (UsageService.getMonthlyLimitAndUsage tier (UsageService.IncrementUsage st ty) ty).2 =
      (UsageService.getMonthlyLimitAndUsage tier st ty).2 + 1 := by
  refine ⟨?_, ?_, ?_, ?_⟩
  · intro e he
    unfold QuotaMiddleware.EnforceQuota
    rw [hty]
    simp only [he]
  · intro he
    unfold QuotaMiddleware.EnforceQuota
    rw [hty]
    simp only [he]
  · cases ty <;> rfl
  · cases ty <;> rfl

/-- C8 witness: a POST to the invoice check endpoint under a zero daily
check limit is rejected with the attempt recorded. -/
theorem quota_breach_still_records_usage_witness :
    (∀ e, UsageService.CheckQuota { checkLimitDaily := some 0 } {} .check = some e →
      QuotaMiddleware.EnforceQuota { checkLimitDaily := some 0 } {} (some 1)
          "POST" "/api/v1/invoices/check" =
        (.tooManyRequests e, UsageService.IncrementUsage {} .check)) ∧
    (UsageService.CheckQuota { checkLimitDaily := some 0 } {} .check = none →
      QuotaMiddleware.EnforceQuota { checkLimitDaily := some 0 } {} (some 1)
          "POST" "/api/v1/invoices/check" =
        (.next, UsageService.IncrementUsage {} .check)) ∧
    (UsageService.getDailyLimitAndUsage { checkLimitDaily := some 0 }
        (UsageService.IncrementUsage {} .check) .check).2 =
      (UsageService.getDailyLimitAndUsage { checkLimitDaily := some 0 } {} .check).2 + 1 ∧
    (UsageService.getMonthlyLimitAndUsage { checkLimitDaily := some 0 }
        (UsageService.IncrementUsage {} .check) .check).2 =
      (UsageService.getMonthlyLimitAndUsage { checkLimitDaily := some 0 } {} .check).2 + 1 :=
  quota_breach_still_records_usage { checkLimitDaily := some 0 } {} 1
    "POST" "/api/v1/invoices/check" .check (by decide)

/-- C5: UnregisterInvoice returns NotFound exactly when the fingerprint is
absent, Forbidden exactly when it exists with a null or different owner,
UnregisterWindowExpired exactly when it exists, is owned by the caller,
and is older than the rollback window, and otherwise deletes the row and
succeeds. -/
theorem unregister_error_taxonomy
    (db : InvoiceDB) (hash : String) (fid : Nat) (maxAge now : Int) :
    (InvoiceService.UnregisterInvoice db hash fid maxAge now = .error .notFound ↔
      InvoiceRepository.FindByHash db hash = none) ∧
    (InvoiceService.UnregisterInvoice db hash fid maxAge now = .error .forbidden ↔
      ∃ r, InvoiceRepository.FindByHash db hash = some r ∧ r.funderId ≠ some fid) ∧
    (InvoiceService.UnregisterInvoice db hash fid maxAge now = .error .unregisterWindowExpired ↔
      ∃ r, InvoiceRepository.FindByHash db hash = some r ∧ r.funderId = some fid ∧
        maxAge * 3600 < now - r.createdAt) ∧
    (∀ r, InvoiceRepository.FindByHash db hash = some r → r.funderId = some fid →
      now - r.createdAt ≤ maxAge * 3600 →
      InvoiceService.UnregisterInvoice db hash fid maxAge now =
        .ok (db.filter (fun x => !(x.id == r.id)))) := by
  have hdel : ∀ r : InvoiceHash, InvoiceRepository.FindByHash db hash = some r →
      InvoiceRepository.Delete db r.id = .ok (db.filter (fun x => !(x.id == r.id))) := by
    intro r hr
    have hmem : r ∈ db := List.mem_of_find?_eq_some hr
    unfold InvoiceRepository.Delete
    rw [if_pos]
    exact List.any_eq_true.mpr ⟨r, hmem, by simp⟩
  rcases hfind : InvoiceRepository.FindByHash db hash with _ | r
  · simp only [InvoiceService.UnregisterInvoice, hfind]
    refine ⟨by simp, by simp, by simp, by simp⟩
  · simp only [InvoiceService.UnregisterInvoice, hfind]
    by_cases hown : r.funderId ≠ some fid
    · rw [if_pos hown]
      refine ⟨by simp, ⟨fun _ => ⟨r, rfl, hown⟩, fun _ => rfl⟩, ?_, ?_⟩
      · constructor
        · intro h
          exact absurd h (by simp)
        · rintro ⟨r2, hr2, hown2, -⟩
          injection hr2 with h
          subst h
          exact absurd hown2 hown
      · intro r2 hr2 hown2 _
        injection hr2 with h
        subst h
        exact absurd hown2 hown
    · rw [if_neg hown]
      have hown2 : r.funderId = some fid := not_not.mp hown
      by_cases hage : maxAge * 3600 < now - r.createdAt
      · rw [if_pos hage]
        refine ⟨by simp, ?_, ⟨fun _ => ⟨r, rfl, hown2, hage⟩, fun _ => rfl⟩, ?_⟩
        · constructor
          · intro h
            exact absurd h (by simp)
          · rintro ⟨r2, hr2, hown3⟩
            injection hr2 with h
            subst h
            exact absurd hown2 hown3
        · intro r2 hr2 _ hage2
          injection hr2 with h
          subst h
          exact absurd hage (not_lt.mpr hage2)
      · rw [if_neg hage]
        simp only [hdel r hfind]
        refine ⟨by simp, ?_, ?_, ?_⟩
        · constructor
          · intro h
            exact absurd h (by simp)
          · rintro ⟨r2, hr2, hown3⟩
            injection hr2 with h
            subst h
            exact absurd hown2 hown3
        · constructor
          · intro h
            exact absurd h (by simp)
          · rintro ⟨r2, hr2, -, hage2⟩
            injection hr2 with h
            subst h
            exact absurd hage2 hage
        · intro r2 hr2 _ _
          injection hr2 with h
          subst h
          rfl

/-- C5 witness: a fingerprint created 25 hours ago, owned by the caller,
yields UnregisterWindowExpired (not NotFound) under the default 24 hour
window. -/
theorem unregister_error_taxonomy_witness :
    InvoiceService.UnregisterInvoice
      [{ id := 1, hashValue := "a1", hashLevel := 1, documentType := "INV", fundedAt := 0,
         funderId := some 7, expiresAt := none, createdAt := 0 }] "a1" 7 24 (25 * 3600) =
      .error .unregisterWindowExpired :=
  ((unregister_error_taxonomy
      [{ id := 1, hashValue := "a1", hashLevel := 1, documentType := "INV", fundedAt := 0,
         funderId := some 7, expiresAt := none, createdAt := 0 }] "a1" 7 24 (25 * 3600)).2.2.1).mpr
    ⟨{ id := 1, hashValue := "a1", hashLevel := 1, documentType := "INV", fundedAt := 0,
       funderId := some 7, expiresAt := none, createdAt := 0 }, by decide, rfl, by decide⟩

/-- Stepping time.Date to day+1 at midnight lands exactly the remainder of
the current day after the given instant. -/
theorem goDateAbs_next_day (t : GoTime) :
    GoDateAbs t.year t.month (t.day + 1) 0 0 0 - t.abs = secondsUntilNextMidnight t := by
  simp only [GoDateAbs, GoTime.abs, secondsUntilNextMidnight]
  ring

/-- For a valid month, time.Date at month+1 day 1 midnight is the first
instant of the next calendar month. -/
theorem goDateAbs_next_month (t : GoTime) (h1 : 1 ≤ t.month) (h2 : t.month ≤ 12) :
    GoDateAbs t.year (t.month + 1) 1 0 0 0 = nextCalendarMonthStart t := by
  simp only [GoDateAbs, nextCalendarMonthStart]
  by_cases hm : t.month = 12
  · rw [hm]
    have e1 : ((12 : Int) + 1 - 1).ediv 12 = 1 := by decide
    have e2 : ((12 : Int) + 1 - 1).emod 12 + 1 = 1 := by decide
    rw [e1, e2]
    simp
    ring
  · rw [if_neg hm]
    have e0 : t.month + 1 - 1 = t.month := by ring
    have e1 : t.month.ediv 12 = 0 := Int.ediv_eq_zero_of_lt (by omega) (by omega)
    have e2 : t.month.emod 12 = t.month := Int.emod_eq_of_lt (by omega) (by omega)
    rw [e0, e1, e2]
    simp
    ring

/-- C9: on a breach CheckAndIncrement rejects without touching either
counter; a daily breach (checked first) reports the seconds left until the
next midnight, and a monthly breach the seconds until the first instant of
the next calendar month. -/
theorem ratelimit_breach_retry_after_no_increment
    (store : RedisStore) (funderID : String) (now : GoTime) (dailyLimit monthlyLimit : Int)
    (hm1 : 1 ≤ now.month) (hm2 : now.month ≤ 12) :
    (dailyLimit ≤ (store (RateLimitService.dailyKey funderID now)).getD 0 →
      RateLimitService.CheckAndIncrement store funderID now dailyLimit monthlyLimit =
        ({ allowed := false,
           dailyUsed := (store (RateLimitService.dailyKey funderID now)).getD 0,
           dailyLimit := dailyLimit,
           monthlyUsed := (store (RateLimitService.monthlyKey funderID now)).getD 0,
           monthlyLimit := monthlyLimit,
           retryAfterSecs := secondsUntilNextMidnight now }, store)) ∧
    ((store (RateLimitService.dailyKey funderID now)).getD 0 < dailyLimit →
      monthlyLimit ≤ (store (RateLimitService.monthlyKey funderID now)).getD 0 →
      RateLimitService.CheckAndIncrement store funderID now dailyLimit monthlyLimit =
        ({ allowed := false,
           dailyUsed := (store (RateLimitService.dailyKey funderID now)).getD 0,
           dailyLimit := dailyLimit,
           monthlyUsed := (store (RateLimitService.monthlyKey funderID now)).getD 0,
           monthlyLimit := monthlyLimit,
           retryAfterSecs := nextCalendarMonthStart now - now.abs }, store)) := by
  constructor
  · intro hd
    unfold RateLimitService.CheckAndIncrement
    rw [if_pos hd, ← goDateAbs_next_day now]
  · intro hd hmo
    unfold RateLimitService.CheckAndIncrement
    rw [if_neg (not_le.mpr hd), if_pos hmo, ← goDateAbs_next_month now hm1 hm2]

/-- C9 witness: with both counters at their limits on 2024-03-31 22:00:00,
the daily breach wins and the retry delay is the 7200 seconds to midnight;
the store is returned unchanged. -/
theorem ratelimit_breach_retry_after_no_increment_witness :
    ((fun _ => some 5 : RedisStore) ("ratelimit:daily:f1:2024-03-31") = some 5) ∧
    RateLimitService.CheckAndIncrement (fun _ => some 5) "f1"
        { year := 2024, month := 3, day := 31, hour := 22, minute := 0, second := 0 } 5 100 =
      ({ allowed := false, dailyUsed := 5, dailyLimit := 5, monthlyUsed := 5,
         monthlyLimit := 100, retryAfterSecs := 7200 }, fun _ => some 5) := by
  constructor
  · rfl
  · have h := (ratelimit_breach_retry_after_no_increment (fun _ => some 5) "f1"
      { year := 2024, month := 3, day := 31, hour := 22, minute := 0, second := 0 } 5 100
      (by decide) (by decide)).1 (by decide)
    rw [h]
    rfl

/-- C3 counterexample: on an all-empty raw request the service hash chain
still computes L1 (over the default document type and four empty party
fields), so the claim that L1 is computed only when supplier tax id,
supplier country, buyer tax id and buyer country are all non-empty fails
for HashService.GenerateHashes. -/
theorem service_l1_computed_from_empty_fields :
    NormalizeTaxID ({} : InvoiceCheckRawRequest).supplierTaxID = "" ∧
    NormalizeCountry ({} : InvoiceCheckRawRequest).supplierCountry = "" ∧
    NormalizeTaxID ({} : InvoiceCheckRawRequest).buyerTaxID = "" ∧
    NormalizeCountry ({} : InvoiceCheckRawRequest).buyerCountry = "" ∧
    ({} : InvoiceCheckRawRequest).issuerTaxID = "" ∧
    ({} : InvoiceCheckRawRequest).issuerCountry = "" ∧
    HashService.GenerateHashes (fun s => s) {} = ["INV||||"] := by
  decide

set_option maxHeartbeats 1600000 in
/-- C3 amended: the SDK hasher guards every level as claimed (L1 by the
four fallback-resolved normalized party fields, L2 additionally by the
document id, L3 additionally by amount and currency presence, so L3
implies L2 implies L1), while the service generator computes L1
unconditionally and guards only L2 and L3 the same way. -/
theorem hash_level_guards (hashFn : String → String) (hne : ∀ s, hashFn s ≠ "")
    (data : InvoiceData) (req : InvoiceCheckRawRequest) :
    ((Hasher.GenerateHashes hashFn data).l1DocType ≠ "" ↔
      (NormalizeTaxID (fallback data.supplierTaxID data.issuerTaxID) ≠ "" ∧
       NormalizeCountry (fallback data.supplierCountry data.issuerCountry) ≠ "" ∧
       NormalizeTaxID data.buyerTaxID ≠ "" ∧ NormalizeCountry data.buyerCountry ≠ "")) ∧
    ((Hasher.GenerateHashes hashFn data).l2Document ≠ "" ↔
      ((Hasher.GenerateHashes hashFn data).l1DocType ≠ "" ∧
       NormalizeInvoiceNumber (fallback data.documentID data.invoiceNumber) ≠ "")) ∧
    ((Hasher.GenerateHashes hashFn data).l3Full ≠ "" ↔
      ((Hasher.GenerateHashes hashFn data).l2Document ≠ "" ∧
       data.amount.isSome ∧ data.currency ≠ "")) ∧
    1 ≤ (HashService.GenerateHashes hashFn req).length ∧
    (HashService.GenerateHashes hashFn req).length =
      (if NormalizeInvoiceNumber (fallback req.documentID req.invoiceNumber) ≠ "" then
        (if req.amount.isSome ∧ req.currency ≠ "" then 3 else 2) else 1) := by
  refine ⟨?_, ?_, ?_, ?_, ?_⟩
  · simp only [Hasher.GenerateHashes, fallback]
    simp only [apply_ite HashResult.l1DocType]
    split_ifs <;> simp_all [hne]
  · simp only [Hasher.GenerateHashes, fallback]
    simp only [apply_ite HashResult.l2Document, apply_ite HashResult.l1DocType]
    split_ifs <;> simp_all [hne]
  · simp only [Hasher.GenerateHashes, fallback]
    simp only [apply_ite HashResult.l3Full, apply_ite HashResult.l2Document]
    split_ifs <;> simp_all [hne]
  · simp only [HashService.GenerateHashes]
    split_ifs <;> simp
  · simp only [HashService.GenerateHashes, fallback]
    split_ifs <;> simp_all

/-- C3 amended witness: concrete invoice data with all fields populated,
evaluated through both generators. -/
theorem hash_level_guards_witness :
    ((Hasher.GenerateHashes (fun _ => "#")
        { supplierTaxID := "DE1", supplierCountry := "DE", buyerTaxID := "FR2",
          buyerCountry := "FR", documentID := "INV-9", amount := some 100,
          currency := "EUR" }).l1DocType ≠ "" ↔
      (NormalizeTaxID (fallback "DE1" "") ≠ "" ∧ NormalizeCountry (fallback "DE" "") ≠ "" ∧
       NormalizeTaxID "FR2" ≠ "" ∧ NormalizeCountry "FR" ≠ "")) ∧
    ((Hasher.GenerateHashes (fun _ => "#")
        { supplierTaxID := "DE1", supplierCountry := "DE", buyerTaxID := "FR2",
          buyerCountry := "FR", documentID := "INV-9", amount := some 100,
          currency := "EUR" }).l2Document ≠ "" ↔
      ((Hasher.GenerateHashes (fun _ => "#")
        { supplierTaxID := "DE1", supplierCountry := "DE", buyerTaxID := "FR2",
          buyerCountry := "FR", documentID := "INV-9", amount := some 100,
          currency := "EUR" }).l1DocType ≠ "" ∧
       NormalizeInvoiceNumber (fallback "INV-9" "") ≠ "")) ∧
    ((Hasher.GenerateHashes (fun _ => "#")
        { supplierTaxID := "DE1", supplierCountry := "DE", buyerTaxID := "FR2",
          buyerCountry := "FR", documentID := "INV-9", amount := some 100,
          currency := "EUR" }).l3Full ≠ "" ↔
      ((Hasher.GenerateHashes (fun _ => "#")
        { supplierTaxID := "DE1", supplierCountry := "DE", buyerTaxID := "FR2",
          buyerCountry := "FR", documentID := "INV-9", amount := some 100,
          currency := "EUR" }).l2Document ≠ "" ∧
       (some 100 : Option Int).isSome ∧ ("EUR" : String) ≠ "")) ∧
    1 ≤ (HashService.GenerateHashes (fun _ => "#") {}).length ∧
    (HashService.GenerateHashes (fun _ => "#") {}).length =
      (if NormalizeInvoiceNumber (fallback ({} : InvoiceCheckRawRequest).documentID
            ({} : InvoiceCheckRawRequest).invoiceNumber) ≠ "" then
        (if ({} : InvoiceCheckRawRequest).amount.isSome ∧
            ({} : InvoiceCheckRawRequest).currency ≠ "" then 3 else 2) else 1) :=
  hash_level_guards (fun _ => "#") (fun _ => (by decide : ("#" : String) ≠ ""))
    { supplierTaxID := "DE1", supplierCountry := "DE", buyerTaxID := "FR2",
      buyerCountry := "FR", documentID := "INV-9", amount := some 100, currency := "EUR" } {}

/-- Indices produced by enumerating a list from n are below n plus its
length. -/
theorem enumFrom_fst_lt (n : Nat) (l : List String) :
    ∀ p ∈ List.enumFrom n l, p.1 < n + l.length := by
  induction l generalizing n with
  | nil => intro p hp; simp [List.enumFrom] at hp
  | cons x xs ih =>
    intro p hp
    simp only [List.enumFrom, List.mem_cons] at hp
    rcases hp with rfl | hp
    · show n < n + (xs.length + 1)
      omega
    · have := ih (n + 1) p hp
      simp only [List.length_cons]
      omega

/-- The check loop collects exactly the live matches of the remaining
enumerated hashes behind the accumulator, provided every index is in
range of the level-name table. -/
theorem checkInvoiceLoop_spec (db : InvoiceDB) (now : Int) (l : List (Nat × String))
    (hidx : ∀ p ∈ l, p.1 < 3) :
    ∀ acc details ff fl, ∃ resp,
      InvoiceService.CheckInvoiceLoop db now l acc details ff fl = some resp ∧
      resp.matchedLevels = acc ++ (l.filter (fun p => liveMatch db now p.2)).map
        (fun p => ["L1", "L2", "L3"].getD p.1 "") ∧
      resp.found = !resp.matchedLevels.isEmpty := by
  induction l with
  | nil =>
    intro acc details ff fl
    exact ⟨_, rfl, by simp, rfl⟩
  | cons p rest ih =>
    intro acc details ff fl
    obtain ⟨i, hash⟩ := p
    have hi : i < 3 := hidx (i, hash) (by simp)
    have hrest : ∀ q ∈ rest, q.1 < 3 := fun q hq => hidx q (by simp [hq])
    rcases hfind : InvoiceRepository.FindByHash db hash with _ | r
    · obtain ⟨resp, h1, h2, h3⟩ := ih hrest acc details ff fl
      refine ⟨resp, ?_, ?_, h3⟩
      · simp only [InvoiceService.CheckInvoiceLoop, hfind]
        exact h1
      · rw [h2]
        have : liveMatch db now hash = false := by simp [liveMatch, hfind]
        simp [this]
    · by_cases hexp : r.expiresAt.any (fun e => e < now)
      · obtain ⟨resp, h1, h2, h3⟩ := ih hrest acc details ff fl
        refine ⟨resp, ?_, ?_, h3⟩
        · simp only [InvoiceService.CheckInvoiceLoop, hfind, hexp]
          exact h1
        · rw [h2]
          have : liveMatch db now hash = false := by simp [liveMatch, hfind, hexp]
          simp [this]
      · have hget : ["L1", "L2", "L3"].get? i = some (["L1", "L2", "L3"].getD i "") := by
          interval_cases i <;> rfl
        obtain ⟨resp, h1, h2, h3⟩ := ih hrest
          (acc ++ [["L1", "L2", "L3"].getD i ""])
          (details ++ [(["L1", "L2", "L3"].getD i "",
            { status := "registered", firstSeen := r.createdAt,
              registeredAt := some r.fundedAt })])
          (ff <|> some r.fundedAt) (fl <|> some (HashService.DetermineHashLevel i))
        refine ⟨resp, ?_, ?_, h3⟩
        · simp only [InvoiceService.CheckInvoiceLoop, hfind, hexp, Bool.false_eq_true,
            if_false, hget]
          rw [if_neg (by omega : ¬ 3 ≤ i)]
          exact h1
        · rw [h2]
          have : liveMatch db now hash = true := by simp [liveMatch, hfind, hexp]
          simp [this]

/-- C2: for at most three supplied fingerprints, CheckInvoice returns the
union of all live matches: matched_levels holds exactly the level names of
every supplied fingerprint with a stored row that is unexpired, and found
is true exactly when that union is non-empty. -/
theorem check_returns_union_of_matches (db : InvoiceDB) (now : Int)
    (hashes : List String) (hlen : hashes.length ≤ 3) :
    ∃ resp, InvoiceService.CheckInvoice db now hashes = some resp ∧
      resp.matchedLevels = specMatchedLevels db now hashes ∧
      (resp.found = true ↔ resp.matchedLevels ≠ []) := by
  have hidx : ∀ p ∈ hashes.enum, p.1 < 3 := by
    intro p hp
    have := enumFrom_fst_lt 0 hashes p hp
    omega
  obtain ⟨resp, h1, h2, h3⟩ := checkInvoiceLoop_spec db now hashes.enum hidx [] [] none none
  refine ⟨resp, h1, ?_, ?_⟩
  · rw [h2]
    rfl
  · rw [h3]
    simp

/-- C2 witness: with L1 and L2 registered and L3 not, checking three
fingerprints yields the union of the two live matches. -/
theorem check_returns_union_of_matches_witness :
    ∃ resp, InvoiceService.CheckInvoice
      [{ id := 1, hashValue := "a", hashLevel := 1, documentType := "INV", fundedAt := 10,
         funderId := none, expiresAt := none, createdAt := 10 },
       { id := 2, hashValue := "b", hashLevel := 2, documentType := "INV", fundedAt := 10,
         funderId := none, expiresAt := none, createdAt := 10 }] 50 ["a", "b", "c"] = some resp ∧
      resp.matchedLevels = specMatchedLevels
        [{ id := 1, hashValue := "a", hashLevel := 1, documentType := "INV", fundedAt := 10,
           funderId := none, expiresAt := none, createdAt := 10 },
         { id := 2, hashValue := "b", hashLevel := 2, documentType := "INV", fundedAt := 10,
           funderId := none, expiresAt := none, createdAt := 10 }] 50 ["a", "b", "c"] ∧
      (resp.found = true ↔ resp.matchedLevels ≠ []) :=
  check_returns_union_of_matches
    [{ id := 1, hashValue := "a", hashLevel := 1, documentType := "INV", fundedAt := 10,
       funderId := none, expiresAt := none, createdAt := 10 },
     { id := 2, hashValue := "b", hashLevel := 2, documentType := "INV", fundedAt := 10,
       funderId := none, expiresAt := none, createdAt := 10 }] 50 ["a", "b", "c"] (by decide)

/-- C6: DetermineHashLevel maps index 0, 1, 2 to L1, L2, L3 and sends any
larger index back to the lowest level, but CheckInvoice itself indexes the
three-entry level-name table before its bounds check, so a fourth supplied
fingerprint that matches a live stored row makes the check fault (Go
panics with index out of range), modelled here as the none result. -/
theorem determine_level_falls_back_but_check_faults :
    HashService.DetermineHashLevel 0 = HashLevelDocType ∧
    HashService.DetermineHashLevel 1 = HashLevelDocument ∧
    HashService.DetermineHashLevel 2 = HashLevelFull ∧
    (∀ i : Nat, HashService.DetermineHashLevel ((i : Int) + 3) = HashLevelDocType) ∧
    InvoiceService.CheckInvoice
      [{ id := 4, hashValue := "h4", hashLevel := 1, documentType := "INV", fundedAt := 10,
         funderId := none, expiresAt := none, createdAt := 10 }] 50
      ["h1", "h2", "h3", "h4"] = none := by
  refine ⟨rfl, rfl, rfl, ?_, by decide⟩
  intro i
  unfold HashService.DetermineHashLevel
  rw [if_neg (by omega), if_neg (by omega), if_neg (by omega)]

/-- The register loop never fails: it only grows the table, and afterwards
every processed fingerprint (and every fingerprint present before) is
present. -/
theorem registerLoop_ok (now : Int) (dt : String) (fd : Int) (sf : Option Nat)
    (ea : Option Int) (ids : Nat → Nat) (l : List (Nat × String)) :
    ∀ db acc, ∃ db2 lv,
      InvoiceService.RegisterInvoiceLoop now dt fd sf ea ids l db acc = .ok (db2, lv) ∧
      (∀ p ∈ l, hashPresent db2 p.2) ∧
      (∀ h, hashPresent db h → hashPresent db2 h) := by
  induction l with
  | nil =>
    intro db acc
    exact ⟨db, acc, rfl, by simp, fun h hh => hh⟩
  | cons p rest ih =>
    intro db acc
    obtain ⟨i, hash⟩ := p
    rcases hfind : InvoiceRepository.FindByHash db hash with _ | r
    · have hnone : ∀ x ∈ db, ¬(x.hashValue == hash) = true := by
        intro x hx
        exact List.find?_eq_none.mp hfind x hx
      have hcreate : InvoiceRepository.Create db
          { id := ids i, hashValue := hash, hashLevel := HashService.DetermineHashLevel i,
            documentType := dt, fundedAt := fd, funderId := sf, expiresAt := ea,
            createdAt := now } = .ok (db ++
          [{ id := ids i, hashValue := hash, hashLevel := HashService.DetermineHashLevel i,
             documentType := dt, fundedAt := fd, funderId := sf, expiresAt := ea,
             createdAt := now }]) := by
        unfold InvoiceRepository.Create
        rw [if_neg]
        simp only [List.any_eq_true, not_exists]
        intro x
        rw [not_and]
        intro hx
        simp [hnone x hx]
      obtain ⟨db2, lv, h1, h2, h3⟩ := ih (db ++
        [{ id := ids i, hashValue := hash, hashLevel := HashService.DetermineHashLevel i,
           documentType := dt, fundedAt := fd, funderId := sf, expiresAt := ea,
           createdAt := now }]) (acc ++ [HashService.DetermineHashLevel i])
      refine ⟨db2, lv, ?_, ?_, ?_⟩
      · simp only [InvoiceService.RegisterInvoiceLoop, hfind, hcreate]
        exact h1
      · intro q hq
        rcases List.mem_cons.mp hq with rfl | hq
        · exact h3 hash ⟨_, List.mem_append_right _ (List.mem_singleton_self _), rfl⟩
        · exact h2 q hq
      · intro h hh
        refine h3 h ?_
        obtain ⟨r0, hr0, hv0⟩ := hh
        exact ⟨r0, by simp [hr0], hv0⟩
    · have hmem : r ∈ db := List.mem_of_find?_eq_some hfind
      have hval : r.hashValue = hash := by
        have := List.find?_some hfind
        simpa using this
      obtain ⟨db2, lv, h1, h2, h3⟩ := ih db acc
      refine ⟨db2, lv, ?_, ?_, h3⟩
      · simp only [InvoiceService.RegisterInvoiceLoop, hfind]
        exact h1
      · intro q hq
        rcases List.mem_cons.mp hq with rfl | hq
        · exact h3 hash ⟨r, hmem, hval⟩
        · exact h2 q hq

/-- When every fingerprint in the list is already present, the register
loop is an identity: no row is written and no level is appended. -/
theorem registerLoop_skips_present (now : Int) (dt : String) (fd : Int) (sf : Option Nat)
    (ea : Option Int) (ids : Nat → Nat) (l : List (Nat × String)) :
    ∀ db acc, (∀ p ∈ l, hashPresent db p.2) →
      InvoiceService.RegisterInvoiceLoop now dt fd sf ea ids l db acc = .ok (db, acc) := by
  induction l with
  | nil => intro db acc _; rfl
  | cons p rest ih =>
    intro db acc hpres
    obtain ⟨i, hash⟩ := p
    rcases hfind : InvoiceRepository.FindByHash db hash with _ | r
    · exfalso
      obtain ⟨r0, hr0, hv0⟩ := hpres (i, hash) (by simp)
      have := List.find?_eq_none.mp hfind r0 hr0
      simp [hv0] at this
    · simp only [InvoiceService.RegisterInvoiceLoop, hfind]
      exact ih db acc (fun q hq => hpres q (by simp [hq]))

/-- C4: registering the same fingerprint list twice in sequence is
idempotent: the first call succeeds, and the second call changes nothing,
returns success, and reports an empty registered-levels list because every
already-present hash is silently skipped. -/
theorem register_twice_is_idempotent (db : InvoiceDB) (now now2 : Int)
    (req : InvoiceRegisterRequest) (fid fid2 : Option Nat) (ids ids2 : Nat → Nat) :
    ∃ db1 r1, InvoiceService.RegisterInvoice db now req fid ids = .ok (db1, r1) ∧
      r1.success = true ∧
      InvoiceService.RegisterInvoice db1 now2 req fid2 ids2 =
        .ok (db1, { success := true, registeredAt := now2, hashLevels := [] }) := by
  obtain ⟨db1, lv, h1, h2, _⟩ := registerLoop_ok now
    (if req.documentType = "" then DefaultDocumentType else req.documentType)
    (req.fundingDate.getD now) (if req.trackFunder then fid else none)
    (match req.expiresInDays with
     | some d => if 0 < d then some (now + d * 86400) else none
     | none => none) ids req.hashes.enum db []
  refine ⟨db1, { success := true, registeredAt := now, hashLevels := lv }, ?_, rfl, ?_⟩
  · unfold InvoiceService.RegisterInvoice
    simp only [h1]
  · unfold InvoiceService.RegisterInvoice
    simp only [registerLoop_skips_present now2
      (if req.documentType = "" then DefaultDocumentType else req.documentType)
      (req.fundingDate.getD now2) (if req.trackFunder then fid2 else none)
      (match req.expiresInDays with
       | some d => if 0 < d then some (now2 + d * 86400) else none
       | none => none) ids2 req.hashes.enum db1 [] h2]

namespace RegisterRace

/-- The find probe sees the row exactly when some stored row carries the
fingerprint. -/
theorem find_isSome_iff_countHash_ne_zero (db : InvoiceDB) (h : String) :
    (InvoiceRepository.FindByHash db h).isSome = true ↔ countHash db h ≠ 0 := by
  unfold InvoiceRepository.FindByHash countHash
  rw [List.find?_isSome]
  constructor
  · rintro ⟨x, hx, hpx⟩
    intro hlen
    rw [List.length_eq_zero] at hlen
    have := List.filter_eq_nil_iff.mp hlen x hx
    exact this hpx
  · intro hlen
    by_contra hc
    push_neg at hc
    apply hlen
    rw [List.length_eq_zero]
    exact List.filter_eq_nil_iff.mpr fun x hx => by
      intro hpx
      exact absurd hpx (by simpa using hc x hx)

/-- Appending the caller's fresh row adds one to the fingerprint count. -/
theorem countHash_append_newRow (db : InvoiceDB) (h : String) (p : CallerParams) (now : Int) :
    countHash (db ++ [newRow h p now]) h = countHash db h + 1 := by
  unfold countHash newRow
  rw [List.filter_append]
  simp

/-- The invariant is symmetric in the two callers. -/
theorem Inv.swap {h : String} {db : InvoiceDB} {a b : TPhase} (hInv : Inv h db a b) :
    Inv h db b a := by
  obtain ⟨h1, h2, h3, h4⟩ := hInv
  exact ⟨h1, h3, h2, fun hc => (h4 hc).symm⟩

/-- One storage step of the left caller preserves the race invariant. -/
theorem Inv.step_left {h : String} {p : CallerParams} {now : Int} {db : InvoiceDB}
    {a b : TPhase} (hInv : Inv h db a b) :
    Inv h (step h p now db a).1 (step h p now db a).2 b := by
  obtain ⟨h1, h2, h3, h4⟩ := hInv
  cases a with
  | toFind =>
    rcases hf : (InvoiceRepository.FindByHash db h).isSome with _ | _
    · exact ⟨h1, by simp [step, hf, TPhase.sawRow], h3,
        fun hc => (h4 hc).imp (fun ha => by simp [TPhase.inserted] at ha) id⟩
    · have hne := (find_isSome_iff_countHash_ne_zero db h).mp hf
      exact ⟨h1, by simp [step, hf, TPhase.sawRow]; omega, h3,
        fun hc => (h4 hc).imp (fun ha => by simp [TPhase.inserted] at ha) id⟩
  | toInsert found =>
    cases found with
    | true =>
      exact ⟨h1, fun _ => h2 rfl, h3,
        fun hc => (h4 hc).imp (fun ha => by simp [TPhase.inserted] at ha) id⟩
    | false =>
      rcases hany : db.any (fun r => r.hashValue == (newRow h p now).hashValue) with _ | _
      · have hcnt : countHash db h = 0 := by
          by_contra hc
          have : (InvoiceRepository.FindByHash db h).isSome = true :=
            (find_isSome_iff_countHash_ne_zero db h).mpr hc
          unfold InvoiceRepository.FindByHash at this
          rw [List.find?_isSome] at this
          obtain ⟨x, hx, hpx⟩ := this
          have : db.any (fun r => r.hashValue == (newRow h p now).hashValue) = true :=
            List.any_eq_true.mpr ⟨x, hx, hpx⟩
          rw [hany] at this
          cases this
        have hstep : step h p now db (.toInsert false) =
            (db ++ [newRow h p now], .done (.ok [Int.natAbs (HashService.DetermineHashLevel 0)])) := by
          simp only [step, InvoiceRepository.Create, hany]
          rfl
        rw [hstep]
        refine ⟨?_, ?_, ?_, ?_⟩
        · rw [countHash_append_newRow, hcnt]
        · intro _
          rw [countHash_append_newRow, hcnt]
        · intro _
          rw [countHash_append_newRow, hcnt]
        · intro _
          left
          rfl
      · have hstep : step h p now db (.toInsert false) = (db, .done .dbError) := by
          simp only [step, InvoiceRepository.Create, hany]
          rfl
        rw [hstep]
        have hcnt : countHash db h = 1 := by
          rw [List.any_eq_true] at hany
          obtain ⟨x, hx, hpx⟩ := hany
          have : (InvoiceRepository.FindByHash db h).isSome = true := by
            unfold InvoiceRepository.FindByHash
            rw [List.find?_isSome]
            exact ⟨x, hx, hpx⟩
          have := (find_isSome_iff_countHash_ne_zero db h).mp this
          omega
        exact ⟨h1, fun _ => hcnt, h3,
          fun hc => (h4 hc).imp (fun ha => by simp [TPhase.inserted] at ha) id⟩
  | done r =>
    exact ⟨h1, h2, h3, h4⟩

/-- Running any schedule preserves the race invariant. -/
theorem Inv.run_preserved (h : String) (pA pB : CallerParams) (now : Int) (s : List Bool) :
    ∀ db a b, Inv h db a b →
      Inv h (run h pA pB now s (db, a, b)).1
        (run h pA pB now s (db, a, b)).2.1 (run h pA pB now s (db, a, b)).2.2 := by
  induction s with
  | nil => intro db a b hInv; exact hInv
  | cons c rest ih =>
    intro db a b hInv
    cases c
    · have := (@Inv.step_left h pB now db b a hInv.swap).swap
      simpa [run] using ih _ _ _ this
    · have := @Inv.step_left h pA now db a b hInv
      simpa [run] using ih _ _ _ this

/-- A finished caller has observed the stored row. -/
theorem TPhase.isDone_sawRow {t : TPhase} (ht : t.isDone = true) : t.sawRow = true := by
  cases t with
  | done r => rfl
  | toFind => cases ht
  | toInsert f => cases ht

/-- A caller that performed the insert finished with a success response. -/
theorem TPhase.inserted_isOk {t : TPhase} (ht : t.inserted = true) : t.isOk = true := by
  cases t with
  | done r => cases r with
    | ok levels => rfl
    | dbError => cases ht
  | toFind => cases ht
  | toInsert f => cases ht

end RegisterRace

/-- C1 counterexample: when both callers pass the existence check before
either insert runs (schedule A-find, B-find, A-insert, B-insert), the
loser's plain INSERT hits the hash_value unique constraint and that caller
receives an error, refuting the claim that every concurrent caller gets a
non-error success response. -/
theorem concurrent_register_loser_gets_error :
    (RegisterRace.run "h" ⟨1, some 10⟩ ⟨2, some 20⟩ 0 [true, false, true, false]
      ([], .toFind, .toFind)).2.1 = .done (.ok [1]) ∧
    (RegisterRace.run "h" ⟨1, some 10⟩ ⟨2, some 20⟩ 0 [true, false, true, false]
      ([], .toFind, .toFind)).2.2 = .done .dbError ∧
    RegisterRace.countHash
      (RegisterRace.run "h" ⟨1, some 10⟩ ⟨2, some 20⟩ 0 [true, false, true, false]
        ([], .toFind, .toFind)).1 "h" = 1 := by
  refine ⟨rfl, rfl, rfl⟩

/-- C1 amended: under every interleaving of two concurrent registrations
of the same absent fingerprint, at most one row is ever stored; when both
callers have finished, exactly one row is stored and at least one caller
received a success response (the winner); the other caller either skipped
silently or received the unique-constraint error. -/
theorem concurrent_register_exactly_one_row (s : List Bool) (db : InvoiceDB)
    (h : String) (pA pB : RegisterRace.CallerParams) (now : Int)
    (h0 : RegisterRace.countHash db h = 0) :
    RegisterRace.countHash
      (RegisterRace.run h pA pB now s (db, .toFind, .toFind)).1 h ≤ 1 ∧
    ((RegisterRace.run h pA pB now s (db, .toFind, .toFind)).2.1.isDone = true →
      (RegisterRace.run h pA pB now s (db, .toFind, .toFind)).2.2.isDone = true →
      RegisterRace.countHash
        (RegisterRace.run h pA pB now s (db, .toFind, .toFind)).1 h = 1 ∧
      ((RegisterRace.run h pA pB now s (db, .toFind, .toFind)).2.1.isOk = true ∨
       (RegisterRace.run h pA pB now s (db, .toFind, .toFind)).2.2.isOk = true)) := by
  have hInv0 : RegisterRace.Inv h db .toFind .toFind := by
    refine ⟨by omega, ?_, ?_, ?_⟩
    · intro hs; cases hs
    · intro hs; cases hs
    · intro hc; rw [h0] at hc; cases hc
  have hInv := RegisterRace.Inv.run_preserved h pA pB now s db .toFind .toFind hInv0
  obtain ⟨h1, h2, h3, h4⟩ := hInv
  refine ⟨h1, fun hda hdb => ?_⟩
  have hc : RegisterRace.countHash
      (RegisterRace.run h pA pB now s (db, .toFind, .toFind)).1 h = 1 :=
    h2 (RegisterRace.TPhase.isDone_sawRow hda)
  exact ⟨hc, (h4 hc).imp RegisterRace.TPhase.inserted_isOk RegisterRace.TPhase.inserted_isOk⟩

/-- C1 amended witness: the serial schedule A-find, A-insert, B-find,
B-skip leaves exactly one row and both callers done. -/
theorem concurrent_register_exactly_one_row_witness :
    RegisterRace.countHash
      (RegisterRace.run "h" ⟨1, some 10⟩ ⟨2, some 20⟩ 0 [true, true, false, false]
        ([], .toFind, .toFind)).1 "h" ≤ 1 ∧
    ((RegisterRace.run "h" ⟨1, some 10⟩ ⟨2, some 20⟩ 0 [true, true, false, false]
        ([], .toFind, .toFind)).2.1.isDone = true →
      (RegisterRace.run "h" ⟨1, some 10⟩ ⟨2, some 20⟩ 0 [true, true, false, false]
        ([], .toFind, .toFind)).2.2.isDone = true →
      RegisterRace.countHash
        (RegisterRace.run "h" ⟨1, some 10⟩ ⟨2, some 20⟩ 0 [true, true, false, false]
          ([], .toFind, .toFind)).1 "h" = 1 ∧
      ((RegisterRace.run "h" ⟨1, some 10⟩ ⟨2, some 20⟩ 0 [true, true, false, false]
          ([], .toFind, .toFind)).2.1.isOk = true ∨
       (RegisterRace.run "h" ⟨1, some 10⟩ ⟨2, some 20⟩ 0 [true, true, false, false]
          ([], .toFind, .toFind)).2.2.isOk = true)) :=
  concurrent_register_exactly_one_row [true, true, false, false] [] "h"
    ⟨1, some 10⟩ ⟨2, some 20⟩ 0 rfl
